import Mathlib

/-!
Verification of the YouTube transcript fetcher (src/skills/youtube-transcript/transcript.py).

The script is embedded shallowly: the regular expressions of extract_video_id
become executable functions on lists of characters, the whitespace
normalization of the fallback path becomes executable list transformations,
and the two network-facing fetchers become functions of an explicit
environment recording the outcome of each external call. Dicts with optional
keys become a structure of Option fields. The possible IndexError from
languages[0] is modelled with Except.
-/

namespace YT

/-- Characters of the regex class [a-zA-Z0-9_-] used for video identifiers. -/
def isIdChar (c : Char) : Bool :=
  let n := c.toNat
  (Nat.ble 97 n && Nat.ble n 122) || (Nat.ble 65 n && Nat.ble n 90) ||
    (Nat.ble 48 n && Nat.ble n 57) || n == 95 || n == 45

/-- Whitespace as Python's regex \s and str.strip see it on str values
(Unicode whitespace: ASCII space and control whitespace, file separators,
NEL, NBSP, and the Unicode space and line separators). -/
def isPySpace (c : Char) : Bool :=
  let n := c.toNat
  n == 32 || (Nat.ble 9 n && Nat.ble n 13) || (Nat.ble 28 n && Nat.ble n 31) ||
    n == 133 || n == 160 || n == 5760 || (Nat.ble 8192 n && Nat.ble n 8202) ||
    n == 8232 || n == 8233 || n == 8239 || n == 8287 || n == 12288

/-- Consume exactly n identifier-class characters from the front of the list,
returning them (the capture group of the regex piece [a-zA-Z0-9_-]{n}), or
none when the list is shorter or a character is outside the class. -/
def takeId : Nat → List Char → Option (List Char)
  | 0, _ => some []
  | _ + 1, [] => none
  | n + 1, c :: cs =>
    if isIdChar c then
      match takeId n cs with
      | some g => some (c :: g)
      | none => none
    else none

/-- Strip the literal character sequence p from the front of l. -/
def dropPre : List Char → List Char → Option (List Char)
  | [], l => some l
  | _ :: _, [] => none
  | p :: ps, c :: cs => if c == p then dropPre ps cs else none

/-- The marker v= of the first pattern. -/
def markV : List Char := ['v', '=']

/-- The marker /v/ of the first pattern. -/
def markSlashV : List Char := ['/', 'v', '/']

/-- The marker youtu.be/ of the first pattern. -/
def markYoutuBe : List Char := ['y', 'o', 'u', 't', 'u', '.', 'b', 'e', '/']

/-- One attempt of the regex (?:v=|/v/|youtu\.be/)([a-zA-Z0-9_-]{11}) anchored
at the head of l: the alternatives in order, each marker followed by exactly
11 identifier characters, which form the capture group. -/
def matchA_at (l : List Char) : Option (List Char) :=
  ((dropPre markV l).bind (takeId 11)).orElse fun _ =>
    ((dropPre markSlashV l).bind (takeId 11)).orElse fun _ =>
      (dropPre markYoutuBe l).bind (takeId 11)

/-- re.search of the first pattern: try matchA_at at every position, left to
right, returning the leftmost capture group. -/
def searchA : List Char → Option (List Char)
  | [] => none
  | c :: cs => (matchA_at (c :: cs)).orElse fun _ => searchA cs

/-- re.search of the anchored pattern ^([a-zA-Z0-9_-]{11})$ : eleven
identifier characters spanning the whole string, where $ also matches just
before one final newline, as in Python. -/
def matchB (l : List Char) : Option (List Char) :=
  (takeId 11 l).bind fun g =>
    if l.drop 11 = [] ∨ l.drop 11 = ['\n'] then some g else none

/-- extract_video_id from transcript.py: the first pattern searched anywhere
in the string, then the anchored bare-identifier pattern; the capture group of
the first pattern that matches, else none. -/
def extract_video_id (url : String) : Option String :=
  ((searchA url.data).orElse fun _ => matchB url.data).map List.asString

/-- re.sub of one or more whitespace characters by a single space: each
maximal whitespace run contributes one space, emitted at the run's last
character. -/
def subSpaces : List Char → List Char
  | [] => []
  | c :: cs =>
    if isPySpace c then
      match cs with
      | [] => [' ']
      | d :: _ => if isPySpace d then subSpaces cs else ' ' :: subSpaces cs
    else c :: subSpaces cs

/-- str.strip of a str: drop whitespace from both ends. -/
def pyStrip (l : List Char) : List Char :=
  ((l.dropWhile isPySpace).reverse.dropWhile isPySpace).reverse

/-- The normalization the fallback path applies to the joined snippet texts:
re.sub of whitespace runs to single spaces, then str.strip. -/
def pyNormalize (s : String) : String :=
  (pyStrip (subSpaces s.data)).asString

/-- str.split on a comma: split at every comma, keeping empty pieces; the
result of splitting any string is non-empty. -/
def pySplit : List Char → List (List Char)
  | [] => [[]]
  | c :: cs =>
    if c == ',' then [] :: pySplit cs
    else
      match pySplit cs with
      | [] => [[c]]
      | w :: ws => (c :: w) :: ws

/-- The JSON-object results transcript.py builds: each field present (some) or
absent (none), one field per key the script ever writes. -/
structure PyDict where
  video_id : Option String := none
  transcript : Option String := none
  language : Option String := none
  available_languages : Option (List String) := none
  is_generated : Option Bool := none
  source : Option String := none
  error : Option String := none
  supadata_error : Option String := none
deriving DecidableEq, Repr

/-- Outcome of the single Supadata HTTP GET: a decoded JSON body with its
three optional fields, an HTTPError carrying status code and reason, or any
other exception rendered as a message. -/
inductive SupaOutcome where
  | ok (content : Option String) (lang : Option String) (availableLangs : Option (List String))
  | httpError (code : Nat) (reason : String)
  | exn (msg : String)
deriving DecidableEq, Repr

/-- Outcome of the youtube-transcript-api fetch: a fetched transcript (its
snippet texts, language and auto-generated flag) or an exception message. -/
inductive YtOutcome where
  | ok (snippets : List String) (language : String) (is_generated : Bool)
  | exn (msg : String)
deriving DecidableEq, Repr

/-- The invocation environment: the optional API key from the secrets file,
the behaviour of the two external transcript sources for this invocation, and
the transcript languages the fallback library could enumerate for the video.
The last field records a capability of the external world; transcript.py
never queries it. -/
structure Env where
  key : Option String
  supa : SupaOutcome
  yt : YtOutcome
  listLangs : Option (List String)
deriving DecidableEq, Repr

/-- Python truthiness of the loaded API key: present and non-empty. -/
def truthy : Option String → Bool
  | none => false
  | some s => !s.isEmpty

/-- The one uncaught exception the library-level code can raise. -/
inductive PyExc where
  | indexError
deriving DecidableEq, Repr

instance instDecEqExcept {e a : Type} [DecidableEq e] [DecidableEq a] :
    DecidableEq (Except e a) := fun x y =>
  match x, y with
  | .ok u, .ok v =>
    if h : u = v then .isTrue (congrArg Except.ok h)
    else .isFalse fun hc => h (Except.ok.inj hc)
  | .error u, .error v =>
    if h : u = v then .isTrue (congrArg Except.error h)
    else .isFalse fun hc => h (Except.error.inj hc)
  | .ok _, .error _ => .isFalse fun hc => Except.noConfusion hc
  | .error _, .ok _ => .isFalse fun hc => Except.noConfusion hc

/-- get_transcript_supadata from transcript.py: check the key, re-extract the
video id, then one HTTP GET whose outcome env.supa determines the dict. -/
def get_transcript_supadata (env : Env) (url : String) (language : String) : PyDict :=
  if !truthy env.key then { error := some "Supadata API key not configured" }
  else
    match extract_video_id url with
    | none => { error := some "Invalid YouTube URL" }
    | some video_id =>
      match env.supa with
      | .ok content lang avail =>
        { video_id := some video_id
          transcript := some (content.getD "")
          language := some (lang.getD language)
          available_languages := some (avail.getD [])
          source := some "supadata" }
      | .httpError code reason =>
        { error := some ("Supadata API error: " ++ toString code ++ " - " ++ reason) }
      | .exn msg => { error := some ("Supadata request failed: " ++ msg) }

/-- get_transcript_ytapi from transcript.py: fetch via the local library
(outcome env.yt); on success join the snippet texts with single spaces and
normalize whitespace; any exception becomes an error dict tagged with the
source. -/
def get_transcript_ytapi (env : Env) (video_id : String) (languages : List String) : PyDict :=
  match env.yt with
  | .ok snippets language is_gen =>
    { video_id := some video_id
      transcript := some (pyNormalize (String.intercalate " " snippets))
      language := some language
      is_generated := some is_gen
      source := some "youtube-transcript-api" }
  | .exn msg => { error := some msg, source := some "youtube-transcript-api" }

/-- The fallback step of get_transcript: run the secondary attempt and, when
it failed, attach the recorded primary error message under supadata_error. -/
def ytStep (env : Env) (video_id : String) (languages : List String)
    (supadata_error : String) : PyDict :=
  let result := get_transcript_ytapi env video_id languages
  if result.error.isSome then { result with supadata_error := some supadata_error }
  else result

/-- The dict get_transcript returns when the input parses to no video id. -/
def invalidDict : PyDict := { error := some "Invalid YouTube URL or video ID" }

/-- get_transcript from transcript.py, instrumented: the same control flow,
and beside the returned dict a pair of flags telling whether the primary
(get_transcript_supadata) and the secondary (get_transcript_ytapi) attempt
ran. Evaluating languages[0] on an empty list raises IndexError, modelled by
the Except error case. Python's local variables languages, result and
supadata_error are inlined (the calls are pure). -/
def get_transcriptT (env : Env) (url : String) (langs0 : Option (List String)) :
    Except PyExc (PyDict × (Bool × Bool)) :=
  match extract_video_id url with
  | none => .ok (invalidDict, (false, false))
  | some video_id =>
    if truthy env.key then
      match langs0.getD ["en", "ru"] with
      | [] => .error .indexError
      | l0 :: _ =>
        if (get_transcript_supadata env url l0).error.isSome then
          .ok (ytStep env video_id (langs0.getD ["en", "ru"])
            ((get_transcript_supadata env url l0).error.getD "Unknown error"), (true, true))
        else .ok (get_transcript_supadata env url l0, (true, false))
    else .ok (ytStep env video_id (langs0.getD ["en", "ru"]) "No API key", (false, true))

/-- get_transcript as its callers see it: the dict alone. -/
def get_transcript (env : Env) (url : String) (langs0 : Option (List String)) :
    Except PyExc PyDict :=
  (get_transcriptT env url langs0).map Prod.fst

/-- The language list the CLI passes: the second real argument split on
commas, or the default list. -/
def cliLanguages (rest : List String) : List String :=
  match rest with
  | langArg :: _ => (pySplit langArg.data).map List.asString
  | [] => ["en", "ru"]

/-- main from transcript.py: argv with the program name first; the returned
pair is the one JSON object printed to standard output and the exit status. -/
def main (env : Env) (argv : List String) : Except PyExc (PyDict × Nat) :=
  match argv with
  | _ :: url :: rest =>
    match get_transcript env url (some (cliLanguages rest)) with
    | .error e => .error e
    | .ok result =>
      if result.error.isSome && result.transcript.isNone then .ok (result, 1)
      else .ok (result, 0)
  | _ => .ok ({ error := some "URL or video ID required" }, 1)

/-- The primary error message get_transcript records for the fallback path:
the error of the primary attempt when credentials are present, else the
no-credentials marker. -/
def primaryError (env : Env) (url : String) (langs0 : Option (List String)) : String :=
  if truthy env.key then
    (get_transcript_supadata env url ((langs0.getD ["en", "ru"]).headD "")).error.getD
      "Unknown error"
  else "No API key"

/-- Environment for the C2 counterexample: no API key, the secondary fetch
raises, and the library could enumerate two available languages. -/
def envC2 : Env :=
  { key := none, supa := .exn "unused", yt := .exn "no transcript found",
    listLangs := some ["en", "de"] }

/-- The dict the C2 counterexample environment produces. -/
def dictC2 : PyDict :=
  { error := some "no transcript found", source := some "youtube-transcript-api",
    supadata_error := some "No API key" }

/-- Environment for the C3 witness: key present, primary succeeds, secondary
would raise if it ever ran. -/
def envC3 : Env :=
  { key := some "k", supa := .ok (some "hi") (some "en") (some ["en"]),
    yt := .exn "should not run", listLangs := none }

/-- Environment for the C4 witness: key present, primary gets HTTP 500,
secondary raises. -/
def envC4 : Env :=
  { key := some "k", supa := .httpError 500 "Internal Server Error",
    yt := .exn "fetch failed", listLangs := none }

/-- Environment for the C5 witness: no key, secondary succeeds. -/
def envC5 : Env :=
  { key := none, supa := .exn "unused", yt := .ok ["hello", "world"] "en" false,
    listLangs := none }

/-- The dict the C5 witness environment produces. -/
def dictC5 : PyDict :=
  { video_id := some "dQw4w9WgXcQ", transcript := some "hello world",
    language := some "en", is_generated := some false,
    source := some "youtube-transcript-api" }

/-- Environment for the C6 witness: credentials present and both sources
healthy, yet an unparseable input never reaches them. -/
def envC6 : Env :=
  { key := some "k", supa := .ok (some "hi") (some "en") (some ["en"]),
    yt := .ok ["hi"] "en" false, listLangs := none }

/-- Environment for the C7 witness: a secondary success whose snippets hold
newlines, tabs and repeated spaces. -/
def envC7 : Env :=
  { key := none, supa := .exn "unused",
    yt := .ok ["Hello\n\nthere,", "  general\tKenobi  "] "en" true, listLangs := none }

/-- Environment for the C9 witness: both sources fail. -/
def envC9 : Env :=
  { key := none, supa := .exn "x", yt := .exn "boom", listLangs := none }

/-- Environment for the C10 witness: key present. -/
def envC10 : Env :=
  { key := some "k", supa := .ok none none none, yt := .exn "x", listLangs := none }

/-- Declarative reading of the first pattern: some position of the string
starts one of the three markers, followed by 11 identifier characters. -/
def MatchesA (l : List Char) : Prop :=
  ∃ p m g r, (m = markV ∨ m = markSlashV ∨ m = markYoutuBe) ∧
    g.length = 11 ∧ (∀ c ∈ g, isIdChar c = true) ∧ l = p ++ m ++ g ++ r

/-- Declarative reading of the second pattern: the whole string is 11
identifier characters, or that followed by one final newline. -/
def MatchesB (l : List Char) : Prop :=
  (l.length = 11 ∧ ∀ c ∈ l, isIdChar c = true) ∨
    (∃ g, g.length = 11 ∧ (∀ c ∈ g, isIdChar c = true) ∧ l = g ++ ['\n'])

/-- No two adjacent whitespace characters. -/
def NoAdjWS (l : List Char) : Prop :=
  List.Chain' (fun a b => ¬(isPySpace a = true ∧ isPySpace b = true)) l

/-- The characters before the v= marker in a canonical watch URL. -/
def watchPre : List Char :=
  ['h', 't', 't', 'p', 's', ':', '/', '/', 'w', 'w', 'w', '.', 'y', 'o', 'u', 't', 'u',
    'b', 'e', '.', 'c', 'o', 'm', '/', 'w', 'a', 't', 'c', 'h', '?', 'v', '=']

/-- A canonical share URL up to and including youtu.be/. -/
def sharePre : List Char :=
  ['h', 't', 't', 'p', 's', ':', '/', '/', 'y', 'o', 'u', 't', 'u', '.', 'b', 'e', '/']

/-- A canonical /v/ URL up to and including /v/. -/
def embedPre : List Char :=
  ['h', 't', 't', 'p', 's', ':', '/', '/', 'w', 'w', 'w', '.', 'y', 'o', 'u', 't', 'u',
    'b', 'e', '.', 'c', 'o', 'm', '/', 'v', '/']

example : extract_video_id "not-a-video" = some "not-a-video" := by decide
example : extract_video_id "https://youtu.be/dQw4w9WgXcQ" = some "dQw4w9WgXcQ" := by decide
example : extract_video_id "https://www.youtube.com/watch?v=dQw4w9WgXcQ" = some "dQw4w9WgXcQ" := by
  decide
example : extract_video_id "dQw4w9WgXcQ" = some "dQw4w9WgXcQ" := by decide
example : extract_video_id "not a video" = none := by decide
example : pyNormalize "  a\n\nb \t c " = "a b c" := by decide
example : pySplit "en,ru".data = ["en".data, "ru".data] := by decide
example : pySplit "".data = [[]] := by decide

theorem searchA_watchPre (t : List Char) :
    searchA (watchPre ++ t) =
      ((takeId 11 t).orElse fun _ => none).orElse fun _ => searchA ('=' :: t) := rfl

theorem searchA_sharePre (t : List Char) :
    searchA (sharePre ++ t) =
      (takeId 11 t).orElse fun _ => searchA (['o', 'u', 't', 'u', '.', 'b', 'e', '/'] ++ t) := rfl

theorem searchA_embedPre (t : List Char) :
    searchA (embedPre ++ t) =
      ((takeId 11 t).orElse fun _ => none).orElse fun _ => searchA (['v', '/'] ++ t) := rfl

theorem orElse_none_left {α : Type} (f : Unit → Option α) : (Option.orElse none f) = f () := rfl

theorem orElse_some_left {α : Type} (a : α) (f : Unit → Option α) :
    (Option.orElse (some a) f) = some a := rfl

theorem orElse_elim {α : Type} {a : Option α} {f : Unit → Option α} {b : α}
    (h : a.orElse f = some b) : a = some b ∨ (a = none ∧ f () = some b) := by
  cases a with
  | none => exact Or.inr ⟨rfl, h⟩
  | some x => exact Or.inl h

theorem takeId_append (g r : List Char) (hval : ∀ c ∈ g, isIdChar c = true) :
    takeId g.length (g ++ r) = some g := by
  induction g with
  | nil => rfl
  | cons c cs ih =>
    have hc : isIdChar c = true := hval c (by simp)
    have ih' := ih fun x hx => hval x (List.mem_cons_of_mem c hx)
    simp [takeId, hc, ih']

theorem takeId_sound (n : Nat) : ∀ l g : List Char, takeId n l = some g →
    g.length = n ∧ (∀ c ∈ g, isIdChar c = true) ∧ ∃ r, l = g ++ r := by
  induction n with
  | zero =>
    intro l g h
    simp only [takeId, Option.some.injEq] at h
    subst h
    exact ⟨rfl, by simp, l, rfl⟩
  | succ n ih =>
    intro l g h
    match l with
    | [] => simp [takeId] at h
    | c :: cs =>
      simp only [takeId] at h
      by_cases hc : isIdChar c = true
      · rw [if_pos hc] at h
        match hg : takeId n cs with
        | none => rw [hg] at h; simp at h
        | some g' =>
          rw [hg] at h
          simp only [Option.some.injEq] at h
          subst h
          obtain ⟨hlen, hvalid, r, hr⟩ := ih cs g' hg
          refine ⟨by simp [hlen], ?_, r, by simp [hr]⟩
          intro x hx
          rcases List.mem_cons.mp hx with h1 | h2
          · exact h1 ▸ hc
          · exact hvalid x h2
      · rw [if_neg hc] at h; simp at h

theorem dropPre_sound : ∀ p l r : List Char, dropPre p l = some r → l = p ++ r := by
  intro p
  induction p with
  | nil =>
    intro l r h
    simp only [dropPre, Option.some.injEq] at h
    simp [h]
  | cons q qs ih =>
    intro l r h
    match l with
    | [] => simp [dropPre] at h
    | c :: cs =>
      simp only [dropPre] at h
      by_cases hq : (c == q) = true
      · rw [if_pos hq] at h
        have hcq : c = q := beq_iff_eq.mp hq
        subst hcq
        simp [ih cs r h]
      · rw [if_neg hq] at h; simp at h

theorem matchA_at_sound (l g : List Char) (h : matchA_at l = some g) :
    ∃ m r, (m = markV ∨ m = markSlashV ∨ m = markYoutuBe) ∧ l = m ++ r ∧
      takeId 11 r = some g := by
  unfold matchA_at at h
  rcases orElse_elim h with h1 | ⟨-, h2⟩
  · rcases Option.bind_eq_some.mp h1 with ⟨r, hd, ht⟩
    exact ⟨markV, r, Or.inl rfl, dropPre_sound _ _ _ hd, ht⟩
  · rcases orElse_elim h2 with h3 | ⟨-, h4⟩
    · rcases Option.bind_eq_some.mp h3 with ⟨r, hd, ht⟩
      exact ⟨markSlashV, r, Or.inr (Or.inl rfl), dropPre_sound _ _ _ hd, ht⟩
    · rcases Option.bind_eq_some.mp h4 with ⟨r, hd, ht⟩
      exact ⟨markYoutuBe, r, Or.inr (Or.inr rfl), dropPre_sound _ _ _ hd, ht⟩

theorem searchA_sound : ∀ l g : List Char, searchA l = some g →
    ∃ p s, l = p ++ s ∧ matchA_at s = some g := by
  intro l
  induction l with
  | nil => intro g h; simp [searchA] at h
  | cons c cs ih =>
    intro g h
    simp only [searchA] at h
    rcases orElse_elim h with h1 | ⟨-, h2⟩
    · exact ⟨[], c :: cs, rfl, h1⟩
    · obtain ⟨p, s, hps, hm⟩ := ih g h2
      exact ⟨c :: p, s, by simp [hps], hm⟩

theorem searchA_MatchesA (l g : List Char) (h : searchA l = some g) : MatchesA l := by
  obtain ⟨p, s, rfl, hm⟩ := searchA_sound l g h
  obtain ⟨m, r, hmark, rfl, ht⟩ := matchA_at_sound s g hm
  obtain ⟨hlen, hval, r', rfl⟩ := takeId_sound 11 r g ht
  exact ⟨p, m, g, r', hmark, hlen, hval, by simp⟩

theorem matchB_MatchesB (l g : List Char) (h : matchB l = some g) : MatchesB l := by
  unfold matchB at h
  rcases Option.bind_eq_some.mp h with ⟨g', ht, hrest⟩
  obtain ⟨hlen, hval, r, rfl⟩ := takeId_sound 11 l g' ht
  rw [List.drop_left' hlen] at hrest
  by_cases hr : r = [] ∨ r = ['\n']
  · rcases hr with rfl | rfl
    · exact Or.inl ⟨by simp [hlen], by simpa using hval⟩
    · exact Or.inr ⟨g', hlen, hval, rfl⟩
  · rw [if_neg hr] at hrest; simp at hrest

theorem matchA_at_valid (l : List Char) (hval : ∀ c ∈ l, isIdChar c = true) :
    matchA_at l = none := by
  match h : matchA_at l with
  | none => rfl
  | some g =>
    exfalso
    obtain ⟨m, r, hmark, heq, -⟩ := matchA_at_sound l g h
    subst heq
    rcases hmark with rfl | rfl | rfl
    · exact absurd (hval '=' (by simp [markV])) (by decide)
    · exact absurd (hval '/' (by simp [markSlashV])) (by decide)
    · exact absurd (hval '.' (by simp [markYoutuBe])) (by decide)

theorem searchA_valid (l : List Char) (hval : ∀ c ∈ l, isIdChar c = true) :
    searchA l = none := by
  induction l with
  | nil => rfl
  | cons c cs ih =>
    have h1 : matchA_at (c :: cs) = none := matchA_at_valid _ hval
    have h2 : searchA cs = none := ih fun x hx => hval x (List.mem_cons_of_mem c hx)
    simp only [searchA, h1, orElse_none_left, h2]

theorem extract_eq_of_searchA (s : String) (g : List Char) (h : searchA s.data = some g) :
    extract_video_id s = some g.asString := by
  unfold extract_video_id
  rw [h]
  rfl

theorem extract_eq_matchB (s : String) (h : searchA s.data = none) :
    extract_video_id s = (matchB s.data).map List.asString := by
  unfold extract_video_id
  rw [h]
  rfl

/-- C1 (amended): an input string matching neither extraction pattern yields
the not-found signal none. The claim's example is wrong: "not-a-video" is an
11-character identifier-class string, so it matches the bare-token pattern
(see the counterexample); a genuinely non-matching input such as "x!" yields
none. -/
theorem C1_neither_pattern_none (s : String)
    (hA : ¬ MatchesA s.data) (hB : ¬ MatchesB s.data) :
    extract_video_id s = none := by
  match h1 : searchA s.data with
  | some g => exact absurd (searchA_MatchesA _ g h1) hA
  | none =>
    match h2 : matchB s.data with
    | some g => exact absurd (matchB_MatchesB _ g h2) hB
    | none => rw [extract_eq_matchB s h1, h2]; rfl

/-- C1 counterexample: "not-a-video" is 11 characters of the identifier
class, so the bare-token pattern matches and extract_video_id returns
some "not-a-video", where the claim says this input yields the not-found
signal. -/
theorem C1_counterexample :
    extract_video_id "not-a-video" = some "not-a-video" := by decide

/-- C1 witness: "x!" matches neither pattern, and extraction yields none. -/
theorem C1_witness :
    ¬ MatchesA "x!".data ∧ ¬ MatchesB "x!".data ∧ extract_video_id "x!" = none := by
  have hA : ¬ MatchesA "x!".data := by
    rintro ⟨p, m, g, r, hm, hlen, -, heq⟩
    have hL : ("x!".data).length = 2 := by decide
    have hm2 : 2 ≤ m.length := by rcases hm with rfl | rfl | rfl <;> decide
    rw [heq] at hL
    simp only [List.length_append] at hL
    omega
  have hB : ¬ MatchesB "x!".data := by
    rintro (⟨hlen, -⟩ | ⟨g, hlen, -, heq⟩)
    · exact absurd hlen (by decide)
    · have hL : ("x!".data).length = 2 := by decide
      rw [heq] at hL
      simp only [List.length_append, List.length_cons, List.length_nil] at hL
      omega
  exact ⟨hA, hB, C1_neither_pattern_none _ hA hB⟩

/-- C8: for canonical watch URLs, share URLs and /v/ URLs (with an arbitrary
suffix after the identifier) and for bare 11-character identifiers, the
extractor returns exactly the identifier; and the first (URL) pattern has
priority: whenever it matches somewhere, its capture group is returned. -/
theorem C8_extractor_correct :
    (∀ (g r : List Char) (s : String), g.length = 11 → (∀ c ∈ g, isIdChar c = true) →
        s.data = watchPre ++ g ++ r → extract_video_id s = some g.asString) ∧
    (∀ (g r : List Char) (s : String), g.length = 11 → (∀ c ∈ g, isIdChar c = true) →
        s.data = sharePre ++ g ++ r → extract_video_id s = some g.asString) ∧
    (∀ (g r : List Char) (s : String), g.length = 11 → (∀ c ∈ g, isIdChar c = true) →
        s.data = embedPre ++ g ++ r → extract_video_id s = some g.asString) ∧
    (∀ (g : List Char) (s : String), g.length = 11 → (∀ c ∈ g, isIdChar c = true) →
        s.data = g → extract_video_id s = some g.asString) ∧
    (∀ (s : String) (g : List Char), searchA s.data = some g →
        extract_video_id s = some g.asString) := by
  have htake : ∀ (g r : List Char), g.length = 11 → (∀ c ∈ g, isIdChar c = true) →
      takeId 11 (g ++ r) = some g := by
    intro g r hlen hval
    have := takeId_append g r hval
    rwa [hlen] at this
  refine ⟨?_, ?_, ?_, ?_, ?_⟩
  · intro g r s hlen hval hs
    apply extract_eq_of_searchA
    rw [hs, List.append_assoc, searchA_watchPre, htake g r hlen hval]
    rfl
  · intro g r s hlen hval hs
    apply extract_eq_of_searchA
    rw [hs, List.append_assoc, searchA_sharePre, htake g r hlen hval]
    rfl
  · intro g r s hlen hval hs
    apply extract_eq_of_searchA
    rw [hs, List.append_assoc, searchA_embedPre, htake g r hlen hval]
    rfl
  · intro g s hlen hval hs
    have hsearch : searchA s.data = none := by
      rw [hs]
      exact searchA_valid g hval
    have h11 : takeId 11 g = some g := by
      have := takeId_append g [] hval
      rwa [hlen, List.append_nil] at this
    have hd : g.drop 11 = [] := List.drop_eq_nil_of_le (by omega)
    rw [extract_eq_matchB s hsearch, hs]
    unfold matchB
    rw [h11, hd]
    simp
  · intro s g h
    exact extract_eq_of_searchA s g h

/-- C8 witness: one concrete URL of each accepted shape, plus the bare
identifier, all yielding dQw4w9WgXcQ. -/
theorem C8_witness :
    extract_video_id "https://www.youtube.com/watch?v=dQw4w9WgXcQ" = some "dQw4w9WgXcQ" ∧
    extract_video_id "https://youtu.be/dQw4w9WgXcQ?t=30" = some "dQw4w9WgXcQ" ∧
    extract_video_id "https://www.youtube.com/v/dQw4w9WgXcQ" = some "dQw4w9WgXcQ" ∧
    extract_video_id "dQw4w9WgXcQ" = some "dQw4w9WgXcQ" := by
  refine ⟨?_, ?_, ?_, ?_⟩
  · exact C8_extractor_correct.1 "dQw4w9WgXcQ".data []
      "https://www.youtube.com/watch?v=dQw4w9WgXcQ" (by decide) (by decide) (by decide)
  · exact C8_extractor_correct.2.1 "dQw4w9WgXcQ".data "?t=30".data
      "https://youtu.be/dQw4w9WgXcQ?t=30" (by decide) (by decide) (by decide)
  · exact C8_extractor_correct.2.2.1 "dQw4w9WgXcQ".data []
      "https://www.youtube.com/v/dQw4w9WgXcQ" (by decide) (by decide) (by decide)
  · exact C8_extractor_correct.2.2.2.1 "dQw4w9WgXcQ".data
      "dQw4w9WgXcQ" (by decide) (by decide) (by decide)

theorem supadata_shape (env : Env) (url : String) (lang : String) :
    ((get_transcript_supadata env url lang).error.isSome = true ∧
      (get_transcript_supadata env url lang).transcript = none) ∨
    ((get_transcript_supadata env url lang).error = none ∧
      (get_transcript_supadata env url lang).transcript.isSome = true) := by
  unfold get_transcript_supadata
  split
  · exact Or.inl ⟨rfl, rfl⟩
  · split
    · exact Or.inl ⟨rfl, rfl⟩
    · split
      · exact Or.inr ⟨rfl, rfl⟩
      · exact Or.inl ⟨rfl, rfl⟩
      · exact Or.inl ⟨rfl, rfl⟩

theorem ytapi_exn (env : Env) (vid : String) (langs : List String) (msg : String)
    (h : env.yt = .exn msg) :
    get_transcript_ytapi env vid langs =
      { error := some msg, source := some "youtube-transcript-api" } := by
  unfold get_transcript_ytapi
  rw [h]

theorem ytapi_ok (env : Env) (vid : String) (langs : List String)
    (snippets : List String) (language : String) (g : Bool)
    (h : env.yt = .ok snippets language g) :
    get_transcript_ytapi env vid langs =
      { video_id := some vid,
        transcript := some (pyNormalize (String.intercalate " " snippets)),
        language := some language, is_generated := some g,
        source := some "youtube-transcript-api" } := by
  unfold get_transcript_ytapi
  rw [h]

theorem ytStep_exn (env : Env) (vid : String) (langs : List String) (se msg : String)
    (h : env.yt = .exn msg) :
    ytStep env vid langs se =
      { error := some msg, source := some "youtube-transcript-api",
        supadata_error := some se } := by
  unfold ytStep
  rw [ytapi_exn env vid langs msg h]
  rfl

theorem ytStep_ok (env : Env) (vid : String) (langs : List String) (se : String)
    (snippets : List String) (language : String) (g : Bool)
    (h : env.yt = .ok snippets language g) :
    ytStep env vid langs se =
      { video_id := some vid,
        transcript := some (pyNormalize (String.intercalate " " snippets)),
        language := some language, is_generated := some g,
        source := some "youtube-transcript-api" } := by
  unfold ytStep
  rw [ytapi_ok env vid langs snippets language g h]
  rfl

theorem ytStep_shape (env : Env) (vid : String) (langs : List String) (se : String) :
    ((ytStep env vid langs se).error.isSome = true ∧
      (ytStep env vid langs se).transcript = none) ∨
    ((ytStep env vid langs se).error = none ∧
      (ytStep env vid langs se).transcript.isSome = true) := by
  cases h : env.yt with
  | ok s l g => exact Or.inr (by rw [ytStep_ok env vid langs se s l g h]; exact ⟨rfl, rfl⟩)
  | exn m => exact Or.inl (by rw [ytStep_exn env vid langs se m h]; exact ⟨rfl, rfl⟩)

theorem get_transcript_ok_iff (env : Env) (url : String) (langs0 : Option (List String))
    (d : PyDict) :
    get_transcript env url langs0 = .ok d ↔
      ∃ b, get_transcriptT env url langs0 = .ok (d, b) := by
  unfold get_transcript
  cases h : get_transcriptT env url langs0 with
  | error e => simp [Except.map]
  | ok p =>
    obtain ⟨d', b⟩ := p
    simp [Except.map]

theorem both_failed_dict (env : Env) (url : String) (langs0 : Option (List String))
    (vid : String) (e : String) (d : PyDict)
    (hvid : extract_video_id url = some vid)
    (hyt : env.yt = .exn e)
    (hok : get_transcript env url langs0 = .ok d)
    (herr : d.error.isSome = true) :
    d = { error := some e, source := some "youtube-transcript-api",
          supadata_error := some (primaryError env url langs0) } := by
  rcases (get_transcript_ok_iff env url langs0 d).mp hok with ⟨b, hT⟩
  unfold get_transcriptT at hT
  simp only [hvid] at hT
  by_cases hk : truthy env.key = true
  · rw [if_pos hk] at hT
    cases hl : langs0.getD ["en", "ru"] with
    | nil => simp only [hl] at hT; exact absurd hT (by simp)
    | cons l0 rest =>
      simp only [hl] at hT
      by_cases hs : (get_transcript_supadata env url l0).error.isSome = true
      · rw [if_pos hs] at hT
        have hd : d = ytStep env vid (l0 :: rest)
            ((get_transcript_supadata env url l0).error.getD "Unknown error") := by
          injection hT with h1
          injection h1 with h2 h3
          exact h2.symm
        rw [hd, ytStep_exn env vid (l0 :: rest) _ e hyt]
        unfold primaryError
        rw [if_pos hk, hl]
        rfl
      · rw [if_neg hs] at hT
        have hd : d = get_transcript_supadata env url l0 := by
          injection hT with h1
          injection h1 with h2 h3
          exact h2.symm
        rw [hd] at herr
        exact absurd herr hs
  · rw [if_neg hk] at hT
    have hd : d = ytStep env vid (langs0.getD ["en", "ru"]) "No API key" := by
      injection hT with h1
      injection h1 with h2 h3
      exact h2.symm
    rw [hd, ytStep_exn env vid _ _ e hyt]
    unfold primaryError
    rw [if_neg hk]

/-- C2 (amended): on a secondary failure the returned ErrorResult carries the
underlying error and the secondary source tag, and the code performs no
enumeration of available transcript languages: the available_languages field
is absent, whatever languages the library could list for the video. -/
theorem C2_no_enumeration (env : Env) (url : String) (langs0 : Option (List String))
    (vid : String) (e : String) (d : PyDict)
    (hvid : extract_video_id url = some vid)
    (hyt : env.yt = .exn e)
    (hok : get_transcript env url langs0 = .ok d)
    (herr : d.error.isSome = true) :
    d.error = some e ∧ d.available_languages = none ∧
      d.source = some "youtube-transcript-api" := by
  have h := both_failed_dict env url langs0 vid e d hvid hyt hok herr
  subst h
  exact ⟨rfl, rfl, rfl⟩

/-- C2 counterexample: the secondary attempt fails in an environment where
language enumeration would succeed (envC2.listLangs is populated), yet the
returned ErrorResult carries no available-language list: the enumeration the
claim describes does not exist in the code. -/
theorem C2_counterexample :
    get_transcript envC2 "dQw4w9WgXcQ" (some ["en"]) = .ok dictC2 ∧
      envC2.listLangs = some ["en", "de"] ∧ dictC2.available_languages = none := by
  exact ⟨by decide, rfl, rfl⟩

/-- C2 witness: the amended theorem applied in envC2. -/
theorem C2_witness :
    extract_video_id "dQw4w9WgXcQ" = some "dQw4w9WgXcQ" ∧
      dictC2.error = some "no transcript found" ∧ dictC2.available_languages = none ∧
      dictC2.source = some "youtube-transcript-api" := by
  have h := C2_no_enumeration envC2 "dQw4w9WgXcQ" (some ["en"]) "dQw4w9WgXcQ"
    "no transcript found" dictC2 (by decide) rfl (by decide) (by decide)
  exact ⟨by decide, h.1, h.2.1, h.2.2⟩

/-- C4: when the secondary attempt also fails, the result carries the
secondary's error plus the recorded primary error: the primary attempt's own
error message, or the no-credentials marker when the primary was skipped. -/
theorem C4_both_errors (env : Env) (url : String) (langs0 : Option (List String))
    (vid : String) (e : String) (d : PyDict)
    (hvid : extract_video_id url = some vid)
    (hyt : env.yt = .exn e)
    (hok : get_transcript env url langs0 = .ok d)
    (herr : d.error.isSome = true) :
    d.error = some e ∧ d.supadata_error = some (primaryError env url langs0) ∧
      (truthy env.key = false → d.supadata_error = some "No API key") := by
  have h := both_failed_dict env url langs0 vid e d hvid hyt hok herr
  subst h
  refine ⟨rfl, rfl, ?_⟩
  intro hk
  unfold primaryError
  rw [hk]
  rfl

/-- C4 witness: HTTP 500 on the primary, an exception on the secondary. -/
theorem C4_witness :
    get_transcript envC4 "dQw4w9WgXcQ" (some ["en"]) =
        .ok { error := some "fetch failed", source := some "youtube-transcript-api",
              supadata_error := some "Supadata API error: 500 - Internal Server Error" } ∧
      ({ error := some "fetch failed", source := some "youtube-transcript-api",
         supadata_error := some "Supadata API error: 500 - Internal Server Error" } :
          PyDict).error = some "fetch failed" ∧
      primaryError envC4 "dQw4w9WgXcQ" (some ["en"]) =
        "Supadata API error: 500 - Internal Server Error" := by
  have h := C4_both_errors envC4 "dQw4w9WgXcQ" (some ["en"]) "dQw4w9WgXcQ" "fetch failed"
    { error := some "fetch failed", source := some "youtube-transcript-api",
      supadata_error := some "Supadata API error: 500 - Internal Server Error" }
    (by decide) rfl (by decide) (by decide)
  exact ⟨by decide, h.1, by decide⟩

/-- C5: every dict get_transcript returns is either a TranscriptResult
(transcript present) or an ErrorResult (error present), and never both. -/
theorem C5_result_exclusive (env : Env) (url : String) (langs0 : Option (List String))
    (d : PyDict) (hok : get_transcript env url langs0 = .ok d) :
    (d.transcript.isSome = true ∨ d.error.isSome = true) ∧
      ¬(d.transcript.isSome = true ∧ d.error.isSome = true) := by
  rcases (get_transcript_ok_iff env url langs0 d).mp hok with ⟨b, hT⟩
  unfold get_transcriptT at hT
  cases hv : extract_video_id url with
  | none =>
    simp only [hv] at hT
    have hd : d = invalidDict := by
      injection hT with h1
      injection h1 with h2 h3
      exact h2.symm
    subst hd
    exact ⟨Or.inr rfl, by simp [invalidDict]⟩
  | some vid =>
    simp only [hv] at hT
    by_cases hk : truthy env.key = true
    · rw [if_pos hk] at hT
      cases hl : langs0.getD ["en", "ru"] with
      | nil => simp only [hl] at hT; exact absurd hT (by simp)
      | cons l0 rest =>
        simp only [hl] at hT
        by_cases hs : (get_transcript_supadata env url l0).error.isSome = true
        · rw [if_pos hs] at hT
          have hd : d = ytStep env vid (l0 :: rest)
              ((get_transcript_supadata env url l0).error.getD "Unknown error") := by
            injection hT with h1
            injection h1 with h2 h3
            exact h2.symm
          subst hd
          rcases ytStep_shape env vid (l0 :: rest)
              ((get_transcript_supadata env url l0).error.getD "Unknown error") with
            ⟨h1, h2⟩ | ⟨h1, h2⟩
          · exact ⟨Or.inr h1, by simp [h2]⟩
          · exact ⟨Or.inl h2, by simp [h1]⟩
        · rw [if_neg hs] at hT
          have hd : d = get_transcript_supadata env url l0 := by
            injection hT with h1
            injection h1 with h2 h3
            exact h2.symm
          subst hd
          rcases supadata_shape env url l0 with ⟨h1, h2⟩ | ⟨h1, h2⟩
          · exact ⟨Or.inr h1, by simp [h2]⟩
          · exact ⟨Or.inl h2, by simp [h1]⟩
    · rw [if_neg hk] at hT
      have hd : d = ytStep env vid (langs0.getD ["en", "ru"]) "No API key" := by
        injection hT with h1
        injection h1 with h2 h3
        exact h2.symm
      subst hd
      rcases ytStep_shape env vid (langs0.getD ["en", "ru"]) "No API key" with
        ⟨h1, h2⟩ | ⟨h1, h2⟩
      · exact ⟨Or.inr h1, by simp [h2]⟩
      · exact ⟨Or.inl h2, by simp [h1]⟩

/-- C5 witness: a secondary success yields a transcript and no error. -/
theorem C5_witness :
    get_transcript envC5 "dQw4w9WgXcQ" (some ["en"]) = .ok dictC5 ∧
      (dictC5.transcript.isSome = true ∨ dictC5.error.isSome = true) ∧
      ¬(dictC5.transcript.isSome = true ∧ dictC5.error.isSome = true) := by
  exact ⟨by decide, C5_result_exclusive envC5 "dQw4w9WgXcQ" (some ["en"]) dictC5 (by decide)⟩

/-- C6: an unparseable input yields the invalid-URL ErrorResult with neither
attempt running, whatever the credentials and network behaviour. -/
theorem C6_invalid_short_circuit (env : Env) (url : String) (langs0 : Option (List String))
    (hvid : extract_video_id url = none) :
    get_transcriptT env url langs0 = .ok (invalidDict, (false, false)) ∧
      invalidDict.error.isSome = true ∧ invalidDict.transcript = none := by
  refine ⟨?_, rfl, rfl⟩
  unfold get_transcriptT
  simp only [hvid]

/-- C6 witness: the input "??" parses to no id; with credentials present and
both sources healthy, the invalid-URL dict still comes back with no attempt
made. -/
theorem C6_witness :
    extract_video_id "??" = none ∧
      get_transcriptT envC6 "??" none = .ok (invalidDict, (false, false)) := by
  have h := C6_invalid_short_circuit envC6 "??" none (by decide)
  exact ⟨by decide, h.1⟩

/-- C3: with credentials present and the primary attempt succeeding, its
result is returned unchanged, the secondary attempt never runs, and the
result is tagged with the primary source. -/
theorem C3_primary_short_circuit (env : Env) (url : String) (langs0 : Option (List String))
    (vid l0 : String) (rest : List String)
    (hkey : truthy env.key = true)
    (hvid : extract_video_id url = some vid)
    (hl : langs0.getD ["en", "ru"] = l0 :: rest)
    (hsup : (get_transcript_supadata env url l0).error = none) :
    get_transcriptT env url langs0 = .ok (get_transcript_supadata env url l0, (true, false)) ∧
      (get_transcript_supadata env url l0).source = some "supadata" := by
  constructor
  · unfold get_transcriptT
    simp only [hvid, hl, if_pos hkey]
    rw [if_neg (by rw [hsup]; simp)]
  · unfold get_transcript_supadata at hsup ⊢
    simp only [hkey, Bool.not_true, Bool.false_eq_true, if_false, hvid] at hsup ⊢
    cases hsupa : env.supa with
    | ok c lg av => simp only [hsupa]
    | httpError code reason => simp only [hsupa] at hsup; exact absurd hsup (by simp)
    | exn m => simp only [hsupa] at hsup; exact absurd hsup (by simp)

/-- C3 witness: a concrete successful primary attempt. -/
theorem C3_witness :
    truthy envC3.key = true ∧
      extract_video_id "dQw4w9WgXcQ" = some "dQw4w9WgXcQ" ∧
      (get_transcript_supadata envC3 "dQw4w9WgXcQ" "en").error = none ∧
      get_transcriptT envC3 "dQw4w9WgXcQ" (some ["en"]) =
        .ok (get_transcript_supadata envC3 "dQw4w9WgXcQ" "en", (true, false)) ∧
      (get_transcript_supadata envC3 "dQw4w9WgXcQ" "en").source = some "supadata" := by
  have h := C3_primary_short_circuit envC3 "dQw4w9WgXcQ" (some ["en"]) "dQw4w9WgXcQ" "en" []
    (by decide) (by decide) rfl (by decide)
  exact ⟨by decide, by decide, by decide, h.1, h.2⟩

theorem pySplit_ne (l : List Char) : pySplit l ≠ [] := by
  induction l with
  | nil => simp [pySplit]
  | cons c cs ih =>
    simp only [pySplit]
    by_cases hc : (c == ',') = true
    · simp [hc]
    · simp only [hc, if_false]
      cases h : pySplit cs with
      | nil => exact absurd h ih
      | cons w ws => simp

theorem get_transcriptT_isOk (env : Env) (url : String) (langs0 : Option (List String))
    (l0 : String) (rest : List String) (hl : langs0.getD ["en", "ru"] = l0 :: rest) :
    (get_transcriptT env url langs0).isOk = true := by
  unfold get_transcriptT
  simp only [hl]
  split
  · rfl
  · split
    · split
      · rfl
      · rfl
    · rfl

theorem get_transcript_isOk (env : Env) (url : String) (langs0 : Option (List String))
    (l0 : String) (rest : List String) (hl : langs0.getD ["en", "ru"] = l0 :: rest) :
    (get_transcript env url langs0).isOk = true := by
  have hT := get_transcriptT_isOk env url langs0 l0 rest hl
  unfold get_transcript
  cases hE : get_transcriptT env url langs0 with
  | error e => rw [hE] at hT; exact Bool.noConfusion hT
  | ok p => rfl

theorem main_cons_ok (env : Env) (prog url : String) (rest : List String) (result : PyDict)
    (hE : get_transcript env url (some (cliLanguages rest)) = .ok result) :
    main env (prog :: url :: rest) =
      if result.error.isSome && result.transcript.isNone then .ok (result, 1)
      else .ok (result, 0) := by
  simp only [main]
  rw [hE]

theorem main_cons_error (env : Env) (prog url : String) (rest : List String) (e : PyExc)
    (hE : get_transcript env url (some (cliLanguages rest)) = .error e) :
    main env (prog :: url :: rest) = .error e := by
  simp only [main]
  rw [hE]

theorem cliLanguages_cons (rest : List String) :
    ∃ l0 ls, cliLanguages rest = l0 :: ls := by
  cases rest with
  | nil => exact ⟨"en", ["ru"], rfl⟩
  | cons a as =>
    cases h : pySplit a.data with
    | nil => exact absurd h (pySplit_ne a.data)
    | cons w ws => exact ⟨w.asString, ws.map List.asString, by simp [cliLanguages, h]⟩

/-- C10: with credentials present and a parseable input, an empty language
list raises IndexError at languages[0]; with any other language argument
(absent, or a non-empty list) get_transcript returns normally; and the CLI's
comma-split always yields a non-empty list, so the CLI never passes one. -/
theorem C10_empty_languages :
    (∀ (env : Env) (url vid : String), truthy env.key = true →
        extract_video_id url = some vid →
        get_transcriptT env url (some []) = .error .indexError) ∧
    (∀ (env : Env) (url : String) (langs0 : Option (List String)), langs0 ≠ some [] →
        (get_transcript env url langs0).isOk = true) ∧
    (∀ l : List Char, pySplit l ≠ []) := by
  refine ⟨?_, ?_, pySplit_ne⟩
  · intro env url vid hkey hvid
    unfold get_transcriptT
    simp only [hvid, if_pos hkey]
    rfl
  · intro env url langs0 hne
    have hl : ∃ l0 rest, langs0.getD ["en", "ru"] = l0 :: rest := by
      cases langs0 with
      | none => exact ⟨"en", ["ru"], rfl⟩
      | some l =>
        cases l with
        | nil => exact absurd rfl hne
        | cons a as => exact ⟨a, as, rfl⟩
    obtain ⟨l0, rest, hl⟩ := hl
    exact get_transcript_isOk env url langs0 l0 rest hl

/-- C10 witness: with a key and a parseable id, the empty list raises; a
singleton list returns normally; a comma-split is never empty. -/
theorem C10_witness :
    truthy envC10.key = true ∧ extract_video_id "dQw4w9WgXcQ" = some "dQw4w9WgXcQ" ∧
      get_transcriptT envC10 "dQw4w9WgXcQ" (some []) = .error .indexError ∧
      (get_transcript envC10 "dQw4w9WgXcQ" (some ["en"])).isOk = true ∧
      pySplit "en,ru".data ≠ [] := by
  refine ⟨by decide, by decide, ?_, ?_, ?_⟩
  · exact C10_empty_languages.1 envC10 "dQw4w9WgXcQ" "dQw4w9WgXcQ" (by decide) (by decide)
  · exact C10_empty_languages.2.1 envC10 "dQw4w9WgXcQ" (some ["en"]) (by simp)
  · exact C10_empty_languages.2.2 "en,ru".data

/-- C9: the CLI never raises: it always yields exactly one dict and an exit
status; the status is 1 exactly when the dict has an error field and no
transcript field (which covers the missing-argument dict), else 0. -/
theorem C9_cli_total (env : Env) (argv : List String) :
    (main env argv).isOk = true ∧
      (∀ (d : PyDict) (c : Nat), main env argv = .ok (d, c) →
        c = if d.error.isSome && d.transcript.isNone then 1 else 0) ∧
      (argv.length < 2 →
        main env argv = .ok ({ error := some "URL or video ID required" }, 1)) := by
  match argv with
  | [] =>
    refine ⟨rfl, ?_, fun _ => rfl⟩
    intro d c h
    simp only [main, Except.ok.injEq, Prod.mk.injEq] at h
    obtain ⟨rfl, rfl⟩ := h
    rfl
  | [prog] =>
    refine ⟨rfl, ?_, fun _ => rfl⟩
    intro d c h
    simp only [main, Except.ok.injEq, Prod.mk.injEq] at h
    obtain ⟨rfl, rfl⟩ := h
    rfl
  | prog :: url :: rest =>
    obtain ⟨l0, ls, hl⟩ := cliLanguages_cons rest
    have hok : (get_transcript env url (some (cliLanguages rest))).isOk = true :=
      get_transcript_isOk env url (some (cliLanguages rest)) l0 ls (by simpa using hl)
    refine ⟨?_, ?_, ?_⟩
    · cases hE : get_transcript env url (some (cliLanguages rest)) with
      | error e => rw [hE] at hok; exact Bool.noConfusion hok
      | ok result =>
        rw [main_cons_ok env prog url rest result hE]
        split <;> rfl
    · intro d c h
      cases hE : get_transcript env url (some (cliLanguages rest)) with
      | error e =>
        rw [main_cons_error env prog url rest e hE] at h
        exact Except.noConfusion h
      | ok result =>
        rw [main_cons_ok env prog url rest result hE] at h
        by_cases hc : (result.error.isSome && result.transcript.isNone) = true
        · rw [if_pos hc] at h
          simp only [Except.ok.injEq, Prod.mk.injEq] at h
          obtain ⟨rfl, rfl⟩ := h
          rw [if_pos hc]
        · rw [if_neg hc] at h
          simp only [Except.ok.injEq, Prod.mk.injEq] at h
          obtain ⟨rfl, rfl⟩ := h
          rw [if_neg hc]
    · intro h
      simp only [List.length_cons] at h
      exact absurd h (by omega)

/-- C9 witness: a missing URL argument prints the required-argument dict and
exits 1. -/
theorem C9_witness :
    (main envC9 ["transcript.py"]).isOk = true ∧
      main envC9 ["transcript.py"] = .ok ({ error := some "URL or video ID required" }, 1) := by
  have h := C9_cli_total envC9 ["transcript.py"]
  exact ⟨h.1, h.2.2 (by decide)⟩

theorem subSpaces_cons_of_not_space (d : Char) (rest : List Char) (hd : isPySpace d = false) :
    subSpaces (d :: rest) = d :: subSpaces rest := by
  simp [subSpaces, hd]

theorem subSpaces_all (l : List Char) :
    ((subSpaces l).all fun c => !isPySpace c || c == ' ') = true := by
  have hsp : isPySpace ' ' = true := rfl
  induction l with
  | nil => rfl
  | cons c cs ih =>
    cases hc : isPySpace c with
    | false => simp [subSpaces_cons_of_not_space c cs hc, hc, ih]
    | true =>
      cases cs with
      | nil => simp [subSpaces, hc, hsp]
      | cons d rest =>
        cases hd : isPySpace d with
        | true => simpa [subSpaces, hc, hd] using ih
        | false =>
          have hstep : subSpaces (c :: d :: rest) = ' ' :: subSpaces (d :: rest) := by
            simp [subSpaces, hc, hd]
          rw [hstep, List.all_cons, ih]
          decide

theorem subSpaces_chain (l : List Char) : NoAdjWS (subSpaces l) := by
  unfold NoAdjWS
  induction l with
  | nil => simp [subSpaces]
  | cons c cs ih =>
    cases hc : isPySpace c with
    | false =>
      rw [subSpaces_cons_of_not_space c cs hc]
      refine List.Chain'.cons' ih fun y hy => ?_
      simp [hc]
    | true =>
      cases cs with
      | nil => simp [subSpaces, hc]
      | cons d rest =>
        cases hd : isPySpace d with
        | true => simpa [subSpaces, hc, hd] using ih
        | false =>
          have hstep : subSpaces (c :: d :: rest) = ' ' :: subSpaces (d :: rest) := by
            simp [subSpaces, hc, hd]
          rw [hstep]
          refine List.Chain'.cons' ih fun y hy => ?_
          rw [subSpaces_cons_of_not_space d rest hd] at hy
          simp only [List.head?_cons, Option.mem_def, Option.some.injEq] at hy
          subst hy
          simp [hd]

theorem subSpaces_filter (l : List Char) :
    ((subSpaces l).filter fun c => !isPySpace c) = l.filter fun c => !isPySpace c := by
  have hsp : isPySpace ' ' = true := rfl
  induction l with
  | nil => rfl
  | cons c cs ih =>
    cases hc : isPySpace c with
    | false => simp [subSpaces_cons_of_not_space c cs hc, List.filter_cons, hc, ih]
    | true =>
      cases cs with
      | nil => simp [subSpaces, hc, List.filter_cons, hsp]
      | cons d rest =>
        cases hd : isPySpace d with
        | true =>
          have hstep : subSpaces (c :: d :: rest) = subSpaces (d :: rest) := by
            simp [subSpaces, hc, hd]
          rw [hstep, ih, List.filter_cons]
          simp [List.filter_cons, hc, hd]
        | false =>
          have hstep : subSpaces (c :: d :: rest) = ' ' :: subSpaces (d :: rest) := by
            simp [subSpaces, hc, hd]
          rw [hstep, List.filter_cons, ih, List.filter_cons]
          simp [List.filter_cons, hc, hd, hsp]

theorem head_dropWhile (p : Char → Bool) (l : List Char) :
    ((l.dropWhile p).head?.all fun c => !p c) = true := by
  induction l with
  | nil => rfl
  | cons c cs ih =>
    cases hc : p c with
    | true => simpa [List.dropWhile_cons, hc] using ih
    | false => simp [List.dropWhile_cons, hc]

theorem getLast_dropWhile_all (p q : Char → Bool) (l : List Char)
    (h : (l.getLast?.all fun c => !q c) = true) :
    ((l.dropWhile p).getLast?.all fun c => !q c) = true := by
  induction l with
  | nil => exact h
  | cons c cs ih =>
    cases hc : p c with
    | false => simpa [List.dropWhile_cons, hc] using h
    | true =>
      simp only [List.dropWhile_cons, hc, if_true]
      apply ih
      cases cs with
      | nil => rfl
      | cons d ds => rw [List.getLast?_cons_cons] at h; exact h

theorem pyStrip_headOpt (l : List Char) :
    ((pyStrip l).head?.all fun c => !isPySpace c) = true := by
  unfold pyStrip
  rw [List.head?_reverse]
  refine getLast_dropWhile_all isPySpace isPySpace _ ?_
  rw [List.getLast?_reverse]
  exact head_dropWhile isPySpace l

theorem pyStrip_lastOpt (l : List Char) :
    ((pyStrip l).getLast?.all fun c => !isPySpace c) = true := by
  unfold pyStrip
  rw [List.getLast?_reverse]
  exact head_dropWhile isPySpace _

theorem all_dropWhile (p q : Char → Bool) (l : List Char) (h : l.all p = true) :
    (l.dropWhile q).all p = true := by
  induction l with
  | nil => exact h
  | cons c cs ih =>
    rw [List.all_cons] at h
    obtain ⟨h1, h2⟩ := Bool.and_eq_true_iff.mp h
    cases hq : q c with
    | false => simp [List.dropWhile_cons, hq, List.all_cons, h1, h2]
    | true =>
      simp only [List.dropWhile_cons, hq, if_true]
      exact ih h2

theorem all_reverse_of_all (p : Char → Bool) (l : List Char) (h : l.all p = true) :
    l.reverse.all p = true := by
  rw [List.all_eq_true] at h ⊢
  intro x hx
  exact h x (List.mem_reverse.mp hx)

theorem pyStrip_all (p : Char → Bool) (l : List Char) (h : l.all p = true) :
    (pyStrip l).all p = true := by
  unfold pyStrip
  exact all_reverse_of_all p _ (all_dropWhile p isPySpace _
    (all_reverse_of_all p _ (all_dropWhile p isPySpace l h)))

theorem chain_dropWhile (q : Char → Bool) (l : List Char) (h : NoAdjWS l) :
    NoAdjWS (l.dropWhile q) :=
  List.Chain'.suffix h (List.dropWhile_suffix q)

theorem chain_reverse (l : List Char) (h : NoAdjWS l) : NoAdjWS l.reverse := by
  unfold NoAdjWS at h ⊢
  rw [List.chain'_reverse]
  exact h.imp fun a b hab hx => hab ⟨hx.2, hx.1⟩

theorem pyStrip_chain (l : List Char) (h : NoAdjWS l) : NoAdjWS (pyStrip l) := by
  unfold pyStrip
  exact chain_reverse _ (chain_dropWhile _ _ (chain_reverse _ (chain_dropWhile _ _ h)))

theorem filter_dropWhile_ws (l : List Char) :
    ((l.dropWhile isPySpace).filter fun c => !isPySpace c) =
      l.filter fun c => !isPySpace c := by
  induction l with
  | nil => rfl
  | cons c cs ih =>
    cases hc : isPySpace c with
    | false => simp [List.dropWhile_cons, hc]
    | true => simp [List.dropWhile_cons, hc, List.filter_cons, ih]

theorem pyStrip_filter (l : List Char) :
    ((pyStrip l).filter fun c => !isPySpace c) = l.filter fun c => !isPySpace c := by
  unfold pyStrip
  rw [List.filter_reverse, filter_dropWhile_ws, List.filter_reverse, filter_dropWhile_ws,
    List.reverse_reverse]

theorem pyNormalize_spec (s : String) :
    ((pyNormalize s).data.all fun c => !isPySpace c || c == ' ') = true ∧
      NoAdjWS (pyNormalize s).data ∧
      ((pyNormalize s).data.head?.all fun c => !isPySpace c) = true ∧
      ((pyNormalize s).data.getLast?.all fun c => !isPySpace c) = true ∧
      ((pyNormalize s).data.filter fun c => !isPySpace c) =
        s.data.filter fun c => !isPySpace c := by
  have hdata : (pyNormalize s).data = pyStrip (subSpaces s.data) := rfl
  rw [hdata]
  refine ⟨pyStrip_all _ _ (subSpaces_all s.data), pyStrip_chain _ (subSpaces_chain s.data),
    pyStrip_headOpt _, pyStrip_lastOpt _, ?_⟩
  rw [pyStrip_filter, subSpaces_filter]

/-- C7: a successful secondary attempt returns the snippet texts joined with
single spaces and whitespace-normalized: the transcript is pyNormalize of the
join; in it every whitespace character is a plain space, no two adjacent
characters are whitespace, it neither starts nor ends with whitespace, and
its non-whitespace characters are exactly those of the joined snippet texts,
in order. -/
theorem C7_normalized (env : Env) (vid : String) (langs snippets : List String)
    (language : String) (gen : Bool) (h : env.yt = .ok snippets language gen) :
    (get_transcript_ytapi env vid langs).transcript =
        some (pyNormalize (String.intercalate " " snippets)) ∧
      ((pyNormalize (String.intercalate " " snippets)).data.all
        fun c => !isPySpace c || c == ' ') = true ∧
      NoAdjWS (pyNormalize (String.intercalate " " snippets)).data ∧
      ((pyNormalize (String.intercalate " " snippets)).data.head?.all
        fun c => !isPySpace c) = true ∧
      ((pyNormalize (String.intercalate " " snippets)).data.getLast?.all
        fun c => !isPySpace c) = true ∧
      ((pyNormalize (String.intercalate " " snippets)).data.filter
        fun c => !isPySpace c) =
        (String.intercalate " " snippets).data.filter fun c => !isPySpace c := by
  have hs := pyNormalize_spec (String.intercalate " " snippets)
  refine ⟨?_, hs.1, hs.2.1, hs.2.2.1, hs.2.2.2.1, hs.2.2.2.2⟩
  rw [ytapi_ok env vid langs snippets language gen h]

/-- C7 witness: snippets holding newlines, tabs and repeated spaces come back
as a single-spaced, trimmed transcript. -/
theorem C7_witness :
    (get_transcript_ytapi envC7 "dQw4w9WgXcQ" ["en"]).transcript =
        some (pyNormalize (String.intercalate " " ["Hello\n\nthere,", "  general\tKenobi  "])) ∧
      pyNormalize (String.intercalate " " ["Hello\n\nthere,", "  general\tKenobi  "]) =
        "Hello there, general Kenobi" := by
  have h := C7_normalized envC7 "dQw4w9WgXcQ" ["en"] ["Hello\n\nthere,", "  general\tKenobi  "]
    "en" true rfl
  exact ⟨h.1, by decide⟩

end YT
